import Mathlib

/-!
# Verification of the rikskurs.se rate-resolution core

Shallow embedding of the Go sources `api.go` and `main.go` of
zeeraw/rikskurs.se.  The core under study is `rateForDate` (the rate
resolver), the HTTP handlers `exchangeHandler`, `exchangeRateHandler` and
`dayHandler`, and the date-defaulting logic of `parseDateParam` /
`parseExchangeParams`.

Modelling choices:
* `currency.Currency` is a normalized string code; we model it as `String`
  and compare with `==` exactly as the Go code does.
* `time.Time` at daily granularity: observations are compared via
  `Date.UnixNano()`, which at daily granularity is order-isomorphic to a
  day index; we model a date as an `Int` day number, so `AddDate(0,0,-7)`
  is subtraction of `7`.
* `float64` values are modelled as `Rat`; the only arithmetic the code
  performs on them is the single multiplication `rate*value`.
* Go's `(value, err)` multiple return is modelled as a pair
  `Rat × Option RErr`, with `0` as the zero value returned alongside an
  error, exactly as the Go functions do.
* The provider (`rb.ExchangeRates`, `rb.Days`) is external: it is a
  function argument from requests to `(response, err)` pairs.
* `sort.Slice` with comparator `rates[j].Date < rates[i].Date` guarantees
  only a permutation ordered by date descending; it is documented as not
  stable, so which of several equal-date observations ends up first is
  implementation-defined (though deterministic).  Two models are used:
  `sortByDateDesc`, an idealized stable insertion sort — adequate for every
  theorem whose hypotheses pin a strictly unique latest date or whose
  conclusion is tie-insensitive, where any conforming sort agrees — and
  `sortSliceGo` / `rateForDateGo`, which replay the exact algorithm the
  Go 1.11 toolchain pinned by the Dockerfile executes for slices of at
  most 12 elements (a gap-6 ShellSort pass followed by insertion sort) and
  are therefore faithful to the program's tie behavior.
-/

/-- A currency code (`currency.Currency` in the Go sources): a normalized
3-letter identifier modelled as a plain string. -/
abbrev Currency := String

/-- A calendar date at daily granularity, as an integer day number
(order-isomorphic to `time.Time.UnixNano()` for the daily observations the
code compares). -/
abbrev Date := Int

/-- `currency.Pair`: an ordered (base, counter) pair. -/
structure Pair where
  base : Currency
  counter : Currency
deriving DecidableEq

/-- `riksbank.AggregateMethod`; the handlers only ever use `Daily`. -/
inductive AggregateMethod where
  | daily
  | weekly
  | monthly
  | quarterly
  | yearly
deriving DecidableEq

/-- One `riksbank.ExchangeRate` observation: base, counter, date and an
optional value (`Value *float64` in Go; `none` models a nil pointer). -/
structure ExchangeRate where
  base : Currency
  counter : Currency
  date : Date
  value : Option Rat
deriving DecidableEq

/-- `riksbank.ExchangeRatesRequest` as built by `rateForDate` (api.go:27-37):
currency pairs, aggregation method and the inclusive window.  The Go fields
`From`/`To` are named `fromDate`/`toDate` here because `from` is reserved
in Lean. -/
structure ExchangeRatesRequest where
  currencyPairs : List Pair
  aggregateMethod : AggregateMethod
  fromDate : Date
  toDate : Date
deriving DecidableEq

/-- The part of `riksbank.ExchangeRatesResponse` the handlers read: the
list of observations. -/
structure ExchangeRatesResponse where
  exchangeRates : List ExchangeRate
deriving DecidableEq

/-- Error kinds surfaced by the core (api.go:19-24); `provider e` stands
for an arbitrary error returned by the provider call itself and passed
through unmodified. -/
inductive RErr where
  | provider (code : Nat)
  | noCurrencyDataForPeriod
  | noConversionRateForPeriod
deriving DecidableEq

/-- The external provider consumed by `rateForDate`
(`rb.ExchangeRates(ctx, req)`): a function from requests to Go-style
`(response, err)` pairs. -/
abbrev Provider := ExchangeRatesRequest → ExchangeRatesResponse × Option RErr

/-- The request `rateForDate` sends (api.go:27-37): the single requested
pair, daily aggregation, window from `date.AddDate(0,0,-7)` to `date`. -/
def rateRequest (base counter : Currency) (date : Date) : ExchangeRatesRequest :=
  { currencyPairs := [{ base := base, counter := counter }]
    aggregateMethod := AggregateMethod.daily
    fromDate := date - 7
    toDate := date }

/-- One step of the stable insertion sort modelling
`sort.Slice(exchangeRates, func(i, j) { return rates[j].Date < rates[i].Date })`
(api.go:47-49): insert an observation into a list already sorted by date
descending, after every strictly later-dated element. -/
def insertByDateDesc (er : ExchangeRate) : List ExchangeRate → List ExchangeRate
  | [] => [er]
  | x :: xs => if er.date < x.date then x :: insertByDateDesc er xs else er :: x :: xs

/-- The sort in api.go:47-49: order the filtered observations by date
descending (most recent first).  This model is stable on equal dates, a
tie order `sort.Slice` itself does not guarantee (see `sortSliceGo` for
the tie-faithful Go 1.11 algorithm); theorems that depend on which
observation is selected therefore assume a strictly unique latest date,
where every date-descending permutation has the same head. -/
def sortByDateDesc : List ExchangeRate → List ExchangeRate
  | [] => []
  | x :: xs => insertByDateDesc x (sortByDateDesc xs)

/-- `rateForDate` (api.go:26-58, identically main.go:240-271): query the
provider over `[date-7, date]` for the pair, propagate a provider error,
filter the response to observations whose base and counter both equal the
request, sort by date descending, fail `noCurrencyDataForPeriod` on an
empty filtered set, fail `noConversionRateForPeriod` if the most recent
observation's value is nil, otherwise return its value.  Returns the
Go-style `(rate, err)` pair with `rate = 0` (the zero value) on every
error path. -/
def rateForDate (provider : Provider) (base counter : Currency) (date : Date) :
    Rat × Option RErr :=
  match provider (rateRequest base counter date) with
  | (_, some e) => (0, some e)
  | (res, none) =>
    let exchangeRates := res.exchangeRates.filter
      (fun er => er.base == base && er.counter == counter)
    match sortByDateDesc exchangeRates with
    | [] => (0, some RErr.noCurrencyDataForPeriod)
    | er :: _ =>
      match er.value with
      | none => (0, some RErr.noConversionRateForPeriod)
      | some v => (v, none)

/-- The first element of maximal date in a list of observations (ties
resolved to the earliest-encountered element).  This is the selection
`rateForDate` effectively performs; `sortByDateDesc_headOpt` below proves
it equal to the head of the descending stable sort. -/
def firstMaxByDate : List ExchangeRate → Option ExchangeRate
  | [] => none
  | x :: xs =>
    match firstMaxByDate xs with
    | none => some x
    | some m => if x.date < m.date then some m else some x

/-- What a handler writes to the `http.ResponseWriter`: an `http.Error`
with a status code and the error it formats, a `fmt.Fprintf("%f", x)` of a
number, a `fmt.Fprintf("%v", b)` of a boolean, or a Go runtime panic from
an out-of-range slice index. -/
inductive HttpWrite where
  | httpError (status : Nat) (e : RErr)
  | printRat (x : Rat)
  | printBool (b : Bool)
  | panicIndexOutOfRange
deriving DecidableEq

/-- The conversion core of `exchangeHandler` in api.go:114-134, after the
parameter parsing succeeded: resolve the rate; on error write the 500
error and return; on success write `rate*value`. -/
def exchangeHandler (provider : Provider) (value : Rat) (base counter : Currency)
    (date : Date) : List HttpWrite :=
  match rateForDate provider base counter date with
  | (_, some e) => [HttpWrite.httpError 500 e]
  | (rate, none) => [HttpWrite.printRat (rate * value)]

/-- The conversion core of `exchangeHandler` in main.go:186-205: identical
to the api.go version except that the error branch has no `return`, so
after writing the 500 error the handler still executes
`fmt.Fprintf(w, "%f", rate*value)` with `rate` left at its zero value. -/
def exchangeHandlerMain (provider : Provider) (value : Rat) (base counter : Currency)
    (date : Date) : List HttpWrite :=
  match rateForDate provider base counter date with
  | (rate, some e) => [HttpWrite.httpError 500 e, HttpWrite.printRat (rate * value)]
  | (rate, none) => [HttpWrite.printRat (rate * value)]

/-- `riksbank.DaysRequest` as built by `dayHandler` (api.go:159-162). -/
structure DaysRequest where
  fromDate : Date
  toDate : Date
deriving DecidableEq

/-- One `riksbank.Day` entry; the handler reads only `IsBankDay`. -/
structure Day where
  date : Date
  isBankDay : Bool
deriving DecidableEq

/-- The part of `riksbank.DaysResponse` the handler reads. -/
structure DaysResponse where
  days : List Day
deriving DecidableEq

/-- The external provider consumed by `dayHandler` (`rb.Days(ctx, req)`). -/
abbrev DaysProvider := DaysRequest → DaysResponse × Option RErr

/-- The core of `dayHandler` (api.go:153-171), after the date parameter
was parsed: query the provider for the single-day range `[day, day]`;
on provider error write the 500 error; otherwise evaluate
`res.Days[0].IsBankDay` and print it.  In Go, `res.Days[0]` on an empty
slice panics with an index-out-of-range runtime error; the model records
that outcome explicitly. -/
def dayHandler (provider : DaysProvider) (day : Date) : List HttpWrite :=
  match provider { fromDate := day, toDate := day } with
  | (_, some e) => [HttpWrite.httpError 500 e]
  | (res, none) =>
    match res.days with
    | [] => [HttpWrite.panicIndexOutOfRange]
    | d0 :: _ => [HttpWrite.printBool d0.isBankDay]

/-- The fixed fallback as-of date `time.Date(2019, 1, 6, 0, 0, 0, 0, time.UTC)`
used by main.go:158 and main.go:213, as a day number (days since the Unix
epoch; 2019-01-06 is day 17902). -/
def fixedFallbackDate : Date := 17902

/-- `parseDateParam` (api.go:60-72): when the `date` path variable is
empty the as-of date defaults to `time.Now()` — modelled by the explicit
`now` argument — otherwise the string is handed to the external
`date.Parse`, modelled by the `parse` argument. -/
def parseDateParam (parse : String → Except String Date) (dateVar : String)
    (now : Date) : Except String Date :=
  if dateVar = "" then Except.ok now else parse dateVar

/-- The date branch of `parseExchangeParams` (main.go:155-165): when the
`date` path variable is empty the as-of date defaults to the fixed
historical date 2019-01-06, otherwise the string is handed to the external
`flags.ParseDate`. -/
def parseExchangeParamsDate (parse : String → Except String Date)
    (dateVar : String) : Except String Date :=
  if dateVar = "" then Except.ok fixedFallbackDate else parse dateVar

/-- The inlined date branch of `exchangeRateHandler` (main.go:210-221):
same fixed 2019-01-06 default as `parseExchangeParamsDate`. -/
def exchangeRateHandlerDate (parse : String → Except String Date)
    (dateVar : String) : Except String Date :=
  if dateVar = "" then Except.ok fixedFallbackDate else parse dateVar

/-- The value `rateForDate` computes from an already-filtered list of
observations: the first maximal-date observation decides everything.
`rateForDate_pure` proves `rateForDate` equal to this selection. -/
def selectRate (l : List ExchangeRate) : Rat × Option RErr :=
  match firstMaxByDate l with
  | none => (0, some RErr.noCurrencyDataForPeriod)
  | some er =>
    match er.value with
    | none => (0, some RErr.noConversionRateForPeriod)
    | some v => (v, none)

/-- Go 1.11 `sort.Slice` comparator as applied to the observation array:
`Less(i, j)` is `rates[j].Date.UnixNano() < rates[i].Date.UnixNano()`
(api.go:48).  Out-of-range indices never occur in the loops below; the
`false` fallback is dead. -/
def lessAt (a : Array ExchangeRate) (i j : Nat) : Bool :=
  match a.get? j, a.get? i with
  | some y, some x => decide (y.date < x.date)
  | _, _ => false

/-- `data.Swap(i, j)` on the observation array; out-of-range indices never
occur in the loops below. -/
def swapAt2 (a : Array ExchangeRate) (i j : Nat) : Array ExchangeRate :=
  match a.get? i, a.get? j with
  | some x, some y => (a.setD i y).setD j x
  | _, _ => a

/-- The gap-6 ShellSort pass of Go 1.11 `sort.quickSort` for `b-a <= 12`:
`for i := a+6; i < b; i++ { if Less(i, i-6) { Swap(i, i-6) } }`.  The
fuel argument bounds the loop iterations; `a.size` fuel always suffices
since swapping preserves the size. -/
def shellPassAux (a : Array ExchangeRate) (i : Nat) : Nat → Array ExchangeRate
  | 0 => a
  | fuel + 1 =>
    if i < a.size then
      shellPassAux (if lessAt a i (i - 6) then swapAt2 a i (i - 6) else a) (i + 1) fuel
    else a

/-- The full gap-6 pass starting at index 6. -/
def shellPass (a : Array ExchangeRate) : Array ExchangeRate :=
  shellPassAux a 6 a.size

/-- The inner loop of Go's `insertionSort`:
`for j := i; j > a && Less(j, j-1); j-- { Swap(j, j-1) }`. -/
def insSortInner (a : Array ExchangeRate) (j : Nat) : Nat → Array ExchangeRate
  | 0 => a
  | fuel + 1 =>
    if 0 < j ∧ lessAt a j (j - 1) then
      insSortInner (swapAt2 a j (j - 1)) (j - 1) fuel
    else a

/-- The outer loop of Go's `insertionSort`: `for i := a+1; i < b; i++`. -/
def insSortOuter (a : Array ExchangeRate) (i : Nat) : Nat → Array ExchangeRate
  | 0 => a
  | fuel + 1 =>
    if i < a.size then insSortOuter (insSortInner a i i) (i + 1) fuel else a

/-- Go's `insertionSort(data, 0, n)`. -/
def insertionSortGo (a : Array ExchangeRate) : Array ExchangeRate :=
  insSortOuter a 1 a.size

/-- `sort.Slice` exactly as executed by the Go 1.11 toolchain the
Dockerfile pins (`golang:1.11`) on slices of at most 12 elements:
`quickSort` skips its partitioning loop for `b-a <= 12` and runs the
gap-6 ShellSort pass followed by `insertionSort`.  (Slices longer than 12
take the partitioning path, not modelled here; this model is faithful for
filtered windows of at most 12 daily observations, which the 8-day query
window makes the realistic case.)  The gap-6 pass makes the sort unstable
from 7 elements up: it can move a later-encountered equal-date observation
ahead of an earlier one. -/
def sortSliceGo (l : List ExchangeRate) : List ExchangeRate :=
  (insertionSortGo (shellPass l.toArray)).toList

/-- `rateForDate` with `sort.Slice` replayed by the Go 1.11 algorithm
`sortSliceGo` instead of the idealized stable `sortByDateDesc`; the code
is otherwise identical to `rateForDate` (api.go:26-58).  Tie-faithful for
filtered slices of at most 12 observations. -/
def rateForDateGo (provider : Provider) (base counter : Currency) (date : Date) :
    Rat × Option RErr :=
  match provider (rateRequest base counter date) with
  | (_, some e) => (0, some e)
  | (res, none) =>
    let exchangeRates := res.exchangeRates.filter
      (fun er => er.base == base && er.counter == counter)
    match sortSliceGo exchangeRates with
    | [] => (0, some RErr.noCurrencyDataForPeriod)
    | er :: _ =>
      match er.value with
      | none => (0, some RErr.noConversionRateForPeriod)
      | some v => (v, none)

/-- Seven (SEK, NOK) observations with dates `[D-5, D, D-1, D-2, D-3,
D-4, D]` for `D = 10`: two observations tie at the maximal date 10, the
first encountered carrying value 1 and the last carrying value 2.  On a
7-element slice Go 1.11's gap-6 pass compares indices 6 and 0 and swaps
them (`date 5 < date 10`), moving the later-encountered date-10
observation to the head, where the subsequent insertion sort keeps it. -/
def go111TieObservations : List ExchangeRate :=
  [⟨"SEK", "NOK", 5, some 3⟩, ⟨"SEK", "NOK", 10, some 1⟩,
   ⟨"SEK", "NOK", 9, some 4⟩, ⟨"SEK", "NOK", 8, some 5⟩,
   ⟨"SEK", "NOK", 7, some 6⟩, ⟨"SEK", "NOK", 6, some 7⟩,
   ⟨"SEK", "NOK", 10, some 2⟩]


theorem insertByDateDesc_headOpt (er y : ExchangeRate) (ys : List ExchangeRate) :
    (insertByDateDesc er (y :: ys)).head? =
      if er.date < y.date then some y else some er := by
  simp only [insertByDateDesc]
  split <;> rfl

theorem sortByDateDesc_headOpt (l : List ExchangeRate) :
    (sortByDateDesc l).head? = firstMaxByDate l := by
  induction l with
  | nil => rfl
  | cons x xs ih =>
    simp only [sortByDateDesc, firstMaxByDate, ← ih]
    cases hs : sortByDateDesc xs with
    | nil => simp [insertByDateDesc]
    | cons y ys =>
      rw [insertByDateDesc_headOpt]
      simp only [List.head?_cons]

theorem firstMaxByDate_mem {l : List ExchangeRate} {m : ExchangeRate}
    (h : firstMaxByDate l = some m) : m ∈ l := by
  induction l with
  | nil => simp [firstMaxByDate] at h
  | cons x xs ih =>
    cases hx : firstMaxByDate xs with
    | none =>
      simp only [firstMaxByDate, hx, Option.some_inj] at h
      subst h
      exact List.mem_cons_self x xs
    | some m0 =>
      simp only [firstMaxByDate, hx] at h
      by_cases hd : x.date < m0.date
      · rw [if_pos hd, Option.some_inj] at h
        subst h
        exact List.mem_cons_of_mem x (ih hx)
      · rw [if_neg hd, Option.some_inj] at h
        subst h
        exact List.mem_cons_self x xs

theorem firstMaxByDate_of_unique_latest {l : List ExchangeRate} {er : ExchangeRate}
    (hmem : er ∈ l) (hlatest : ∀ x ∈ l, x ≠ er → x.date < er.date) :
    firstMaxByDate l = some er := by
  induction l with
  | nil => cases hmem
  | cons x xs ih =>
    rcases List.mem_cons.mp hmem with h1 | hx
    · subst h1
      cases hm : firstMaxByDate xs with
      | none => simp [firstMaxByDate, hm]
      | some m =>
        simp only [firstMaxByDate, hm]
        by_cases hme : m = er
        · subst hme
          simp
        · have hlt : m.date < er.date :=
            hlatest m (List.mem_cons_of_mem er (firstMaxByDate_mem hm)) hme
          have hnlt : ¬ er.date < m.date := not_lt.mpr hlt.le
          rw [if_neg hnlt]
    · have her : firstMaxByDate xs = some er :=
        ih hx (fun y hy hne => hlatest y (List.mem_cons_of_mem x hy) hne)
      simp only [firstMaxByDate, her]
      by_cases hxe : x = er
      · subst hxe
        simp
      · rw [if_pos (hlatest x (List.mem_cons_self x xs) hxe)]

theorem rateForDate_pure (res : ExchangeRatesResponse) (base counter : Currency)
    (date : Date) :
    rateForDate (fun _ => (res, none)) base counter date =
      selectRate (res.exchangeRates.filter
        (fun er => er.base == base && er.counter == counter)) := by
  have h := sortByDateDesc_headOpt (res.exchangeRates.filter
    (fun er => er.base == base && er.counter == counter))
  simp only [rateForDate, selectRate, ← h]
  cases hs : sortByDateDesc (res.exchangeRates.filter
      (fun er => er.base == base && er.counter == counter)) with
  | nil => rfl
  | cons y ys => rfl

theorem filter_matches_eq_nil (l : List ExchangeRate) (base counter : Currency)
    (hnone : ∀ x ∈ l, x.base = base → x.counter = counter → False) :
    l.filter (fun er => er.base == base && er.counter == counter) = [] := by
  rw [List.filter_eq_nil_iff]
  intro a ha
  simp only [Bool.and_eq_true, beq_iff_eq, not_and]
  exact fun hb hc => hnone a ha hb hc

theorem firstMax_filter_of_unique_latest (res : ExchangeRatesResponse)
    (base counter : Currency) (er : ExchangeRate)
    (hmem : er ∈ res.exchangeRates) (hb : er.base = base) (hc : er.counter = counter)
    (hlatest : ∀ x ∈ res.exchangeRates,
      x.base = base → x.counter = counter → x ≠ er → x.date < er.date) :
    firstMaxByDate (res.exchangeRates.filter
      (fun x => x.base == base && x.counter == counter)) = some er := by
  apply firstMaxByDate_of_unique_latest
  · exact List.mem_filter.mpr ⟨hmem, by simp [hb, hc]⟩
  · intro x hx hne
    obtain ⟨hxm, hxp⟩ := List.mem_filter.mp hx
    simp only [Bool.and_eq_true, beq_iff_eq] at hxp
    exact hlatest x hxm hxp.1 hxp.2 hne

/-- C1 (counterexample): the claim fails as stated.  Over the window
`[3, 10]` for as-of date 10, the response holds a present-valued (SEK, NOK)
observation at date 7 (inside the window), so the claim demands the value
19; but the latest-dated (SEK, NOK) observation (date 10) has a nil
value, and `rateForDate` fails with `noConversionRateForPeriod` instead of
returning the earlier present value. -/
theorem rateForDate_absent_latest_shadows_present :
    rateForDate
        (fun _ => (⟨[⟨"SEK", "NOK", 7, some 19⟩, ⟨"SEK", "NOK", 10, none⟩]⟩, none))
        "SEK" "NOK" 10 = (0, some RErr.noConversionRateForPeriod) ∧
    rateForDate
        (fun _ => (⟨[⟨"SEK", "NOK", 7, some 19⟩, ⟨"SEK", "NOK", 10, none⟩]⟩, none))
        "SEK" "NOK" 10 ≠ ((19 : Rat), (none : Option RErr)) := by
  constructor
  · rfl
  · decide

/-- C1 (amended): whenever the strictly latest-dated (A, B) observation of
the response has a present value, `rateForDate` returns exactly that
observation's value, never an earlier one's, even if later-dated
observations for other pairs exist in the same response (the pair filter
removes them before the date ordering). -/
theorem rateForDate_returns_unique_latest_value (res : ExchangeRatesResponse)
    (base counter : Currency) (date : Date) (er : ExchangeRate) (v : Rat)
    (hmem : er ∈ res.exchangeRates) (hb : er.base = base) (hc : er.counter = counter)
    (hv : er.value = some v)
    (hlatest : ∀ x ∈ res.exchangeRates,
      x.base = base → x.counter = counter → x ≠ er → x.date < er.date) :
    rateForDate (fun _ => (res, none)) base counter date = (v, none) := by
  rw [rateForDate_pure]
  simp only [selectRate,
    firstMax_filter_of_unique_latest res base counter er hmem hb hc hlatest, hv]

/-- C1 (witness): the (SEK, NOK) observation at date 7 with value 19 is
returned even though a later-dated (SEK, USD) observation exists in the
same response. -/
theorem rateForDate_returns_unique_latest_value_witness :
    rateForDate
        (fun _ => (⟨[⟨"SEK", "NOK", 7, some 19⟩, ⟨"SEK", "USD", 10, some 1⟩]⟩, none))
        "SEK" "NOK" 10 = (19, none) :=
  rateForDate_returns_unique_latest_value
    ⟨[⟨"SEK", "NOK", 7, some 19⟩, ⟨"SEK", "USD", 10, some 1⟩]⟩
    "SEK" "NOK" 10 ⟨"SEK", "NOK", 7, some 19⟩ 19
    (by decide) rfl rfl rfl (by decide)

/-- C2 (confirmed): when the latest-dated observation matching the
requested pair has an absent value, `rateForDate` fails with
`noConversionRateForPeriod` and does not fall back to any earlier
observation, even when an earlier observation has a present value. -/
theorem rateForDate_absent_at_latest_fails (res : ExchangeRatesResponse)
    (base counter : Currency) (date : Date) (er : ExchangeRate)
    (hmem : er ∈ res.exchangeRates) (hb : er.base = base) (hc : er.counter = counter)
    (hv : er.value = none)
    (hlatest : ∀ x ∈ res.exchangeRates,
      x.base = base → x.counter = counter → x ≠ er → x.date < er.date) :
    rateForDate (fun _ => (res, none)) base counter date =
      (0, some RErr.noConversionRateForPeriod) := by
  rw [rateForDate_pure]
  simp only [selectRate,
    firstMax_filter_of_unique_latest res base counter er hmem hb hc hlatest, hv]

/-- C2 (witness): latest (SEK, NOK) slot at date 10 has a nil value while
date 7 holds 19; the resolver fails rather than falling back. -/
theorem rateForDate_absent_at_latest_fails_witness :
    rateForDate
        (fun _ => (⟨[⟨"SEK", "NOK", 7, some 19⟩, ⟨"SEK", "NOK", 10, none⟩]⟩, none))
        "SEK" "NOK" 10 = (0, some RErr.noConversionRateForPeriod) :=
  rateForDate_absent_at_latest_fails
    ⟨[⟨"SEK", "NOK", 7, some 19⟩, ⟨"SEK", "NOK", 10, none⟩]⟩
    "SEK" "NOK" 10 ⟨"SEK", "NOK", 10, none⟩
    (by decide) rfl rfl rfl (by decide)

/-- C3 (code bug): on the api.go conversion handler a resolver failure
produces only the 500 error, and a successful resolution produces exactly
`rate*value`; the main.go variant of `exchangeHandler`, missing the
`return` after `http.Error`, additionally writes `0*value` (the zero-value
rate times the amount) after the error — a partial conversion the spec
forbids.  The success paths of both handlers multiply only after
resolution succeeded. -/
theorem exchangeHandler_error_and_success_paths :
    ∀ (value : Rat) (base counter : Currency) (date : Date),
      exchangeHandler (fun _ => (⟨[]⟩, none)) value base counter date
        = [HttpWrite.httpError 500 RErr.noCurrencyDataForPeriod] ∧
      exchangeHandlerMain (fun _ => (⟨[]⟩, none)) value base counter date
        = [HttpWrite.httpError 500 RErr.noCurrencyDataForPeriod,
           HttpWrite.printRat (0 * value)] ∧
      exchangeHandler (fun _ => (⟨[⟨"SEK", "NOK", 0, some 19⟩]⟩, none))
          value "SEK" "NOK" 0 = [HttpWrite.printRat (19 * value)] ∧
      exchangeHandlerMain (fun _ => (⟨[⟨"SEK", "NOK", 0, some 19⟩]⟩, none))
          value "SEK" "NOK" 0 = [HttpWrite.printRat (19 * value)] := by
  intro value base counter date
  refine ⟨rfl, rfl, ?_, ?_⟩ <;> rfl

/-- C4 (code bug): `dayHandler` queries the provider for the single-day
range `[day, day]` and prints the `isBankDay` flag of the first result,
but when the provider returns an empty set it evaluates `res.Days[0]` and
panics with an index-out-of-range runtime error instead of failing with
`noCurrencyDataForPeriod`. -/
theorem dayHandler_empty_days_panics :
    ∀ (day : Date) (d0 : Day) (rest : List Day),
      dayHandler (fun _ => (⟨[]⟩, none)) day = [HttpWrite.panicIndexOutOfRange] ∧
      dayHandler (fun _ => (⟨d0 :: rest⟩, none)) day
        = [HttpWrite.printBool d0.isBankDay] := by
  intro day d0 rest
  exact ⟨rfl, rfl⟩

/-- C5 (confirmed): a provider response containing no observation matching
the requested (base, counter) pair makes `rateForDate` fail with
`noCurrencyDataForPeriod`. -/
theorem rateForDate_no_match_fails (res : ExchangeRatesResponse)
    (base counter : Currency) (date : Date)
    (hnone : ∀ x ∈ res.exchangeRates, x.base = base → x.counter = counter → False) :
    rateForDate (fun _ => (res, none)) base counter date =
      (0, some RErr.noCurrencyDataForPeriod) := by
  rw [rateForDate_pure, filter_matches_eq_nil res.exchangeRates base counter hnone]
  rfl

/-- C5 (witness): a response holding only the swapped pair (NOK, SEK)
yields `noCurrencyDataForPeriod` when (SEK, NOK) is requested. -/
theorem rateForDate_no_match_fails_witness :
    rateForDate (fun _ => (⟨[⟨"NOK", "SEK", 10, some 1⟩]⟩, none)) "SEK" "NOK" 10 =
      (0, some RErr.noCurrencyDataForPeriod) :=
  rateForDate_no_match_fails ⟨[⟨"NOK", "SEK", 10, some 1⟩]⟩ "SEK" "NOK" 10 (by decide)

/-- C6 (counterexample): the claim fails as stated.  `rateForDate` never
checks observation dates against the window: a response whose only
(SEK, NOK) observation is dated -10, strictly before the window start
0 - 7 = -7, still resolves successfully to that out-of-window value
instead of failing with `noCurrencyDataForPeriod`. -/
theorem rateForDate_selects_out_of_window :
    rateForDate (fun _ => (⟨[⟨"SEK", "NOK", -10, some 9⟩]⟩, none)) "SEK" "NOK" 0
      = (9, none) ∧
    rateForDate (fun _ => (⟨[⟨"SEK", "NOK", -10, some 9⟩]⟩, none)) "SEK" "NOK" 0
      ≠ (0, some RErr.noCurrencyDataForPeriod) ∧
    (-10 : Int) < 0 - 7 := by
  refine ⟨rfl, ?_, by decide⟩
  decide

/-- C6 (amended): when the response respects the queried window (every
observation dated on or after `date - 7`) and every (base, counter)
observation the provider knows is strictly before `date - 7` — so none
appears in the response — `rateForDate` fails with
`noCurrencyDataForPeriod`; the date filtering itself is delegated to the
provider, not performed by `rateForDate`. -/
theorem rateForDate_window_conforming_no_data_fails (res : ExchangeRatesResponse)
    (base counter : Currency) (date : Date)
    (hconf : ∀ x ∈ res.exchangeRates, date - 7 ≤ x.date)
    (hbefore : ∀ x ∈ res.exchangeRates,
      x.base = base → x.counter = counter → x.date < date - 7) :
    rateForDate (fun _ => (res, none)) base counter date =
      (0, some RErr.noCurrencyDataForPeriod) := by
  rw [rateForDate_pure, filter_matches_eq_nil res.exchangeRates base counter]
  · rfl
  · intro x hx hb hc
    exact absurd (hconf x hx) (not_le.mpr (hbefore x hx hb hc))

/-- C6 (witness): a window-conforming response holding only another pair
inside the window fails with `noCurrencyDataForPeriod` for (SEK, NOK). -/
theorem rateForDate_window_conforming_no_data_fails_witness :
    rateForDate (fun _ => (⟨[⟨"USD", "SEK", 5, some 1⟩]⟩, none)) "SEK" "NOK" 10 =
      (0, some RErr.noCurrencyDataForPeriod) :=
  rateForDate_window_conforming_no_data_fails ⟨[⟨"USD", "SEK", 5, some 1⟩]⟩
    "SEK" "NOK" 10 (by decide) (by decide)

/-- C7 (confirmed): filtering is pair-exact — whenever `rateForDate`
succeeds, the returned value comes from an observation of the response
whose base and counter both exactly equal the request; a swapped or
different pair is never selected. -/
theorem rateForDate_success_from_exact_pair (res : ExchangeRatesResponse)
    (base counter : Currency) (date : Date) (v : Rat)
    (h : rateForDate (fun _ => (res, none)) base counter date = (v, none)) :
    ∃ er ∈ res.exchangeRates,
      er.base = base ∧ er.counter = counter ∧ er.value = some v := by
  rw [rateForDate_pure] at h
  cases hm : firstMaxByDate (res.exchangeRates.filter
      (fun er => er.base == base && er.counter == counter)) with
  | none => simp [selectRate, hm] at h
  | some er =>
    cases hv : er.value with
    | none => simp [selectRate, hm, hv] at h
    | some w =>
      simp only [selectRate, hm, hv, Prod.mk.injEq] at h
      obtain ⟨hem, hep⟩ := List.mem_filter.mp (firstMaxByDate_mem hm)
      simp only [Bool.and_eq_true, beq_iff_eq] at hep
      exact ⟨er, hem, hep.1, hep.2, h.1 ▸ hv⟩

/-- C7 (witness): a successful resolution against a response mixing the
swapped pair and the exact pair is traced back to the exact-pair
observation. -/
theorem rateForDate_success_from_exact_pair_witness :
    ∃ er ∈ (⟨[⟨"NOK", "SEK", 10, some 5⟩, ⟨"SEK", "NOK", 7, some 2⟩]⟩ :
        ExchangeRatesResponse).exchangeRates,
      er.base = "SEK" ∧ er.counter = "NOK" ∧ er.value = some 2 :=
  rateForDate_success_from_exact_pair
    ⟨[⟨"NOK", "SEK", 10, some 5⟩, ⟨"SEK", "NOK", 7, some 2⟩]⟩
    "SEK" "NOK" 10 2 (by decide)

/-- C8 (confirmed): `rateForDate` consults the provider only at the
request with the single pair (base, counter), daily aggregation and the
inclusive lookback window from `date - 7` to `date`; two providers that
agree on that one request produce identical resolutions. -/
theorem rateForDate_query_window (base counter : Currency) (date : Date)
    (p q : Provider)
    (hpq : p (rateRequest base counter date) = q (rateRequest base counter date)) :
    rateForDate p base counter date = rateForDate q base counter date ∧
    (rateRequest base counter date).currencyPairs = [{ base := base, counter := counter }] ∧
    (rateRequest base counter date).aggregateMethod = AggregateMethod.daily ∧
    (rateRequest base counter date).fromDate = date - 7 ∧
    (rateRequest base counter date).toDate = date := by
  refine ⟨?_, rfl, rfl, rfl, rfl⟩
  simp only [rateForDate, hpq]

/-- C8 (witness): instantiation at (SEK, NOK), as-of date 10 and two
definitionally equal providers. -/
theorem rateForDate_query_window_witness :
    rateForDate (fun _ => (⟨[]⟩, none)) "SEK" "NOK" 10 =
      rateForDate (fun _ => (⟨[]⟩, none)) "SEK" "NOK" 10 ∧
    (rateRequest "SEK" "NOK" 10).currencyPairs = [{ base := "SEK", counter := "NOK" }] ∧
    (rateRequest "SEK" "NOK" 10).aggregateMethod = AggregateMethod.daily ∧
    (rateRequest "SEK" "NOK" 10).fromDate = 3 ∧
    (rateRequest "SEK" "NOK" 10).toDate = 10 :=
  rateForDate_query_window "SEK" "NOK" 10 (fun _ => (⟨[]⟩, none))
    (fun _ => (⟨[]⟩, none)) rfl

/-- C10 (confirmed): when the caller supplies no date, the api.go entry
point `parseDateParam` defaults the as-of date to the current wall-clock
date (`time.Now()`), while the main.go entry points `parseExchangeParams`
and `exchangeRateHandler` default it to the fixed historical date
2019-01-06; whenever the current date differs from that constant the two
policies disagree. -/
theorem default_date_policy_differs :
    ∀ (parse : String → Except String Date) (now : Date),
      parseDateParam parse "" now = Except.ok now ∧
      parseExchangeParamsDate parse "" = Except.ok fixedFallbackDate ∧
      exchangeRateHandlerDate parse "" = Except.ok fixedFallbackDate ∧
      (now ≠ fixedFallbackDate →
        parseDateParam parse "" now ≠ parseExchangeParamsDate parse "") := by
  intro parse now
  refine ⟨rfl, rfl, rfl, ?_⟩
  intro hne hcon
  simp [parseDateParam, parseExchangeParamsDate] at hcon
  exact hne hcon

/-- C10 (witness): at current date 0 the api.go default (0) and the
main.go default (17902, i.e. 2019-01-06) disagree. -/
theorem default_date_policy_differs_witness :
    parseDateParam (fun _ => Except.error "") "" 0 = Except.ok 0 ∧
    parseExchangeParamsDate (fun _ => Except.error "") "" =
      Except.ok fixedFallbackDate ∧
    parseDateParam (fun _ => Except.error "") "" 0 ≠
      parseExchangeParamsDate (fun _ => Except.error "") "" :=
  ⟨(default_date_policy_differs (fun _ => Except.error "") 0).1,
   (default_date_policy_differs (fun _ => Except.error "") 0).2.1,
   (default_date_policy_differs (fun _ => Except.error "") 0).2.2.2 (by decide)⟩

/-- C9 (counterexample): the claimed tie-break fails on the program.
`sort.Slice` is not stable: on the 7-element tied input
`go111TieObservations` the Go 1.11 gap-6 ShellSort pass swaps the
later-encountered date-10 observation (value 2) to the head, so
`rateForDateGo` — the tie-faithful replay of the code's sort — returns 2,
whereas selecting the first observation encountered after a stable sort
(`selectRate`, the head of the stable descending sort by
`sortByDateDesc_headOpt`) would return 1. -/
theorem rateForDateGo_tie_not_first_encountered :
    rateForDateGo (fun _ => (⟨go111TieObservations⟩, none)) "SEK" "NOK" 10
      = (2, none) ∧
    selectRate (go111TieObservations.filter
      (fun er => er.base == "SEK" && er.counter == "NOK")) = (1, none) ∧
    rateForDateGo (fun _ => (⟨go111TieObservations⟩, none)) "SEK" "NOK" 10 ≠
      selectRate (go111TieObservations.filter
        (fun er => er.base == "SEK" && er.counter == "NOK")) := by
  refine ⟨rfl, rfl, ?_⟩
  decide

/-- C9 (amended): `rateForDateGo` is deterministic — two runs against
providers returning identical responses produce the same result, also
when observations tie on the maximal date — but which tied observation is
selected is implementation-defined by the unstable `sort.Slice`, not
necessarily the first encountered after a stable sort. -/
theorem rateForDateGo_deterministic (p q : Provider) (base counter : Currency)
    (date : Date) (h : ∀ r, p r = q r) :
    rateForDateGo p base counter date = rateForDateGo q base counter date := by
  simp only [rateForDateGo, h]

/-- C9 (witness): two runs on the identical tied 7-element response agree,
both selecting value 2 (the later-encountered date-10 observation). -/
theorem rateForDateGo_deterministic_witness :
    rateForDateGo (fun _ => (⟨go111TieObservations⟩, none)) "SEK" "NOK" 10 =
      rateForDateGo (fun _ => (⟨go111TieObservations⟩, none)) "SEK" "NOK" 10 ∧
    rateForDateGo (fun _ => (⟨go111TieObservations⟩, none)) "SEK" "NOK" 10 =
      (2, none) :=
  ⟨rateForDateGo_deterministic (fun _ => (⟨go111TieObservations⟩, none))
      (fun _ => (⟨go111TieObservations⟩, none)) "SEK" "NOK" 10 (fun _ => rfl),
   by decide⟩
